import Mathlib

/-!
Verification of the real-time ingestion and derived-view pipeline of the
stock-market dashboard (frontend sources under `src/frontend/src`).

The JavaScript code is shallowly embedded: JS finite numbers are rationals
(`ℚ`); the `Infinity` sentinel used for the filter's unbounded max bounds is
the extra constructor of `JVal`; the single-threaded event-driven execution of
the WebSocket hook is a step function over an explicit state record; React
effects are modelled as functions that run after each state update, mirroring
their dependency arrays.
-/

namespace StockDashboard

/-- One instrument snapshot row, field names as in the inbound `market_data`
payload consumed by `App.js` and `StatsPanel`. -/
structure Stock where
  symbol : String
  current_price : ℚ
  percent_change : ℚ
  volume : ℚ
  trade_count : ℚ
  high : ℚ
  low : ℚ
  vwap : ℚ
  std_dev : ℚ
deriving DecidableEq

/-- A JavaScript number as used for the filter's max bounds: either a finite
value or the `Infinity` literal (`App.js` lines 29 and 31, and the reset
button of `FilterControls.js`). -/
inductive JVal where
  | num : ℚ → JVal
  | inf : JVal
deriving DecidableEq

/-- The comparison `v <= bound` performed by the filter of `App.js`
(lines 79 and 81): against the `Infinity` bound every finite value passes. -/
def JVal.geNum : JVal → ℚ → Bool
  | JVal.num m, p => decide (p ≤ m)
  | JVal.inf, _ => true

/-- The `filterConfig` state of `App.js` (lines 27-34). -/
structure FilterConfig where
  minPrice : ℚ
  maxPrice : JVal
  minVolume : ℚ
  maxVolume : JVal
  minTradeCount : ℚ
  displayCount : Nat
deriving DecidableEq

/-- The field names of a snapshot, usable as `sortConfig.key`. -/
inductive SortKey where
  | symbol
  | current_price
  | percent_change
  | volume
  | trade_count
  | high
  | low
  | vwap
  | std_dev
deriving DecidableEq

/-- The value of one snapshot field: a JS number or a JS string. -/
inductive FieldVal where
  | num : ℚ → FieldVal
  | str : String → FieldVal
deriving DecidableEq

/-- Field access `stock[key]` used by the comparator of `App.js`. -/
def keyVal : SortKey → Stock → FieldVal
  | SortKey.symbol, s => FieldVal.str s.symbol
  | SortKey.current_price, s => FieldVal.num s.current_price
  | SortKey.percent_change, s => FieldVal.num s.percent_change
  | SortKey.volume, s => FieldVal.num s.volume
  | SortKey.trade_count, s => FieldVal.num s.trade_count
  | SortKey.high, s => FieldVal.num s.high
  | SortKey.low, s => FieldVal.num s.low
  | SortKey.vwap, s => FieldVal.num s.vwap
  | SortKey.std_dev, s => FieldVal.num s.std_dev

/-- The JS `<` comparison on two values of the same snapshot field. Both
operands always come from the same field, so only same-constructor cases
arise; the mixed cases are `false`, matching JS relational comparison of a
number with a non-numeric string. -/
def FieldVal.ltb : FieldVal → FieldVal → Bool
  | FieldVal.num a, FieldVal.num b => decide (a < b)
  | FieldVal.str a, FieldVal.str b => decide (a < b)
  | _, _ => false

/-- The `sortConfig` state of `App.js` (lines 23-26): a key and a direction
string compared against the literal `asc`. -/
structure SortConfig where
  key : SortKey
  direction : String
deriving DecidableEq

/-- The comparator passed to `filtered.sort` in `App.js` lines 86-94:
`-1` when `a[key] < b[key]` (flipped to `1` when descending), `1` when
`a[key] > b[key]` (flipped to `-1` when descending), `0` on ties. JS
`a > b` coincides with `b < a` on numbers and strings. -/
def stockCompare (cfg : SortConfig) (a b : Stock) : Int :=
  if FieldVal.ltb (keyVal cfg.key a) (keyVal cfg.key b) then
    (if cfg.direction = "asc" then -1 else 1)
  else if FieldVal.ltb (keyVal cfg.key b) (keyVal cfg.key a) then
    (if cfg.direction = "asc" then 1 else -1)
  else 0

/-- `Array.prototype.sort` with the comparator above. The ECMAScript sort is
stable, and for a consistent comparator `c` its result is the unique stable
reordering that places `a` before `b` whenever `c a b ≤ 0` demands it; that
order is computed here by insertion sort on the relation `c a b ≤ 0`. -/
def jsSortStocks (cfg : SortConfig) (l : List Stock) : List Stock :=
  l.insertionSort (fun a b => stockCompare cfg a b ≤ 0)

/-- The filter predicate of `App.js` lines 76-84. -/
def stockPasses (f : FilterConfig) (s : Stock) : Bool :=
  decide (f.minPrice ≤ s.current_price) &&
  JVal.geNum f.maxPrice s.current_price &&
  decide (f.minVolume ≤ s.volume) &&
  JVal.geNum f.maxVolume s.volume &&
  decide (f.minTradeCount ≤ s.trade_count)

/-- The derived-view computation of the filter-and-sort effect of `App.js`
lines 73-98: filter, then stable sort, then `slice(0, displayCount)`. -/
def compute (stocks : List Stock) (f : FilterConfig) (cfg : SortConfig) : List Stock :=
  (jsSortStocks cfg (stocks.filter (stockPasses f))).take f.displayCount

/-- The aggregate figures of the `StatsPanel` memo (`FilterControls.js`
lines 271-311) that the aggregator contract concerns; the top-5 display
lists and their string formatting are presentation and are not modelled. -/
structure MarketStats where
  totalVolume : ℚ
  totalTrades : ℚ
  avgPrice : ℚ
deriving DecidableEq

/-- The `StatsPanel` stats memo: `null` exactly when the snapshot set is
empty (line 272, `if (!stocks.length) return null`), otherwise the three
reduce-based aggregates of lines 280-282. -/
def statsOf (stocks : List Stock) : Option MarketStats :=
  if stocks.length = 0 then none
  else some
    { totalVolume := stocks.foldl (fun sum s => sum + s.volume) 0
      totalTrades := stocks.foldl (fun sum s => sum + s.trade_count) 0
      avgPrice := (stocks.foldl (fun sum s => sum + s.current_price) 0) / (stocks.length : ℚ) }

/-- A successfully parsed inbound envelope: a `type` discriminant and its
`data` payload (only `market_data` payloads reach the store, so the payload
is carried as a snapshot list). -/
structure ParsedMsg where
  type : String
  data : List Stock
deriving DecidableEq

/-- The mutable state of the `useWebSocket` hook (`useWebSocket.js`):
`hasSocket` is `wsRef.current` being non-null with its handlers attached,
`timerPending` is `reconnectTimeoutRef.current` holding a live timer,
`retryCount` is `reconnectCountRef.current`, `connectionStatus` the state
string, `unmounted` records that the effect cleanup ran, `connectCalls`
counts invocations of `connect` (each one constructs a `new WebSocket`). -/
structure HookState where
  hasSocket : Bool
  timerPending : Bool
  retryCount : Nat
  connectionStatus : String
  unmounted : Bool
  connectCalls : Nat
deriving DecidableEq

/-- `connect` (`useWebSocket.js` lines 10-46): constructs a socket, stores it
in `wsRef`, installs the four handlers. -/
def connectFn (s : HookState) : HookState :=
  { s with hasSocket := true, connectCalls := s.connectCalls + 1 }

/-- The asynchronous occurrences delivered to the hook in the single-threaded
event model: the mount effect, the cleanup, the four socket events, and the
reconnect timer firing. -/
inductive HookEvent where
  | mount
  | unmount
  | openEvt
  | messageEvt
  | closeEvt
  | errorEvt
  | timerFire
deriving DecidableEq

/-- The delay computed by the `onclose` handler (`useWebSocket.js` line 28):
`Math.min(1000 * Math.pow(2, reconnectCountRef.current), 30000)`. -/
def oncloseDelay (s : HookState) : Nat :=
  min (1000 * 2 ^ s.retryCount) 30000

/-- One step of the hook. `mount` runs the effect body (line 49, `connect()`).
`unmount` runs the cleanup (lines 51-58): it calls `close()` on the stored
socket — whose close event is delivered later as a separate `closeEvt`, the
handlers staying attached — and clears the pending timer. `openEvt` is
`onopen` (lines 15-19, resets the retry counter). `closeEvt` is `onclose`
(lines 25-35, schedules the reconnect timer). `errorEvt` is `onerror`.
`timerFire` is the scheduled callback (lines 31-34): increments the retry
counter and calls `connect` again. -/
def hookStep (s : HookState) : HookEvent → HookState
  | HookEvent.mount => connectFn s
  | HookEvent.unmount => { s with unmounted := true, timerPending := false }
  | HookEvent.openEvt =>
      if s.hasSocket then { s with connectionStatus := "connected", retryCount := 0 } else s
  | HookEvent.messageEvt => s
  | HookEvent.closeEvt =>
      if s.hasSocket then { s with connectionStatus := "disconnected", timerPending := true } else s
  | HookEvent.errorEvt =>
      if s.hasSocket then { s with connectionStatus := "error" } else s
  | HookEvent.timerFire =>
      if s.timerPending then
        connectFn { s with timerPending := false, retryCount := s.retryCount + 1 }
      else s

/-- The delays observed over `n` consecutive disconnects with no intervening
successful open: each disconnect delivers the close event (which computes the
delay from the current retry counter and schedules the timer), then the timer
fires (incrementing the counter and re-invoking `connect`). -/
def delaysFrom (s : HookState) : Nat → List Nat
  | 0 => []
  | n + 1 =>
      oncloseDelay (hookStep s HookEvent.closeEvt) ::
        delaysFrom (hookStep (hookStep s HookEvent.closeEvt) HookEvent.timerFire) n

/-- Run a sequence of hook events in arrival order. -/
def runEvents (s : HookState) (es : List HookEvent) : HookState :=
  es.foldl hookStep s

/-- The hook state before the mount effect runs: no socket, no timer, retry
counter zero, status `connecting` (the `useState` initial values). -/
def initialHookState : HookState :=
  { hasSocket := false, timerPending := false, retryCount := 0,
    connectionStatus := "connecting", unmounted := false, connectCalls := 0 }

/-- A hook state with a live connected socket and a non-zero retry counter,
used to exercise the reset-on-open behaviour. -/
def connectedHookState : HookState :=
  { hasSocket := true, timerPending := false, retryCount := 5,
    connectionStatus := "connected", unmounted := false, connectCalls := 1 }

/-- Teardown while connected: mount, successful open, then the effect
cleanup. -/
def teardownTrace : List HookEvent :=
  [HookEvent.mount, HookEvent.openEvt, HookEvent.unmount]

/-- The same teardown followed by the close event that `close()` itself
causes the browser to deliver, and by the timer that event schedules. -/
def leakTrace : List HookEvent :=
  [HookEvent.mount, HookEvent.openEvt, HookEvent.unmount,
   HookEvent.closeEvt, HookEvent.timerFire]

/-- The combined state of the pipeline visible to `App.js`: the hook state
plus the `App` component's own state atoms. -/
structure SysState where
  hook : HookState
  stocks : List Stock
  filteredStocks : List Stock
  sortConfig : SortConfig
  filterConfig : FilterConfig
deriving DecidableEq

/-- The message-processing effect of `App.js` lines 59-70. `JSON.parse` is
modelled by its outcome: `none` when parsing throws — the surrounding
`try`/`catch` logs the error and performs no state update — and `some m` for
a successfully parsed envelope, in which case only a `market_data`
discriminant replaces the snapshot store. -/
def processMessage (st : SysState) (parsed : Option ParsedMsg) : SysState :=
  match parsed with
  | none => st
  | some m => if m.type = "market_data" then { st with stocks := m.data } else st

/-- The filter-and-sort effect body of `App.js` lines 73-98: recompute the
derived view from the current snapshots and configuration. -/
def runFilterEffect (st : SysState) : SysState :=
  { st with filteredStocks := compute st.stocks st.filterConfig st.sortConfig }

/-- The state updates that reach the derived view: an inbound frame, a filter
configuration change, a sort configuration change. -/
inductive AppAction where
  | message (parsed : Option ParsedMsg)
  | setFilterConfig (f : FilterConfig)
  | setSortConfig (c : SortConfig)

/-- One render cycle of `App`: the action updates state, then the
filter-and-sort effect re-runs, because its dependency array
`[stocks, sortConfig, filterConfig]` (line 98) names every input of the
derived-view computation. -/
def appStep (st : SysState) : AppAction → SysState
  | AppAction.message p => runFilterEffect (processMessage st p)
  | AppAction.setFilterConfig f => runFilterEffect { st with filterConfig := f }
  | AppAction.setSortConfig c => runFilterEffect { st with sortConfig := c }

/-- The initial `sortConfig` of `App.js` lines 23-26. -/
def defaultSortConfig : SortConfig :=
  { key := SortKey.trade_count, direction := "desc" }

/-- A concrete snapshot sitting exactly on a price bound. -/
def stockAtMax : Stock :=
  { symbol := "AAA", current_price := 100, percent_change := 2, volume := 10,
    trade_count := 5, high := 101, low := 99, vwap := 100, std_dev := 1 }

/-- The same snapshot one unit above the price bound. -/
def stockAboveMax : Stock :=
  { stockAtMax with current_price := 101 }

/-- A filter whose price ceiling is the finite bound `100`. -/
def boundaryFilter : FilterConfig :=
  { minPrice := 0, maxPrice := JVal.num 100, minVolume := 0, maxVolume := JVal.inf,
    minTradeCount := 0, displayCount := 50 }

/-- The same filter with an unbounded price ceiling. -/
def unboundedMaxFilter : FilterConfig :=
  { boundaryFilter with maxPrice := JVal.inf }

/-- A filter with an inverted price range: `minPrice = 5 > 3 = maxPrice`. -/
def invertedFilter : FilterConfig :=
  { minPrice := 5, maxPrice := JVal.num 3, minVolume := 0, maxVolume := JVal.inf,
    minTradeCount := 0, displayCount := 50 }

/-- A concrete combined state for witnesses. -/
def exampleSys : SysState :=
  { hook := connectedHookState, stocks := [stockAtMax], filteredStocks := [],
    sortConfig := defaultSortConfig, filterConfig := boundaryFilter }

/-- One hundred distinct snapshots that all pass `boundaryFilter` restricted
to prices below its ceiling. -/
def manyStocks : List Stock :=
  (List.range 100).map (fun i =>
    { symbol := toString i, current_price := (i : ℚ), percent_change := 0,
      volume := (i : ℚ), trade_count := (i : ℚ), high := 0, low := 0,
      vwap := 0, std_dev := 0 })

/-- A pass-everything filter showing twenty entries. -/
def topTwentyFilter : FilterConfig :=
  { minPrice := 0, maxPrice := JVal.inf, minVolume := 0, maxVolume := JVal.inf,
    minTradeCount := 0, displayCount := 20 }

/-! Helper lemmas. -/

/-- Inserting an element into a list leaves its position relative to all
elements it is tied with determined by input order, provided the insertion
relation holds between any two elements satisfying the predicate. -/
theorem filter_orderedInsert {α : Type} (r : α → α → Prop) [DecidableRel r]
    (p : α → Bool) (x : α) (l : List α)
    (h : ∀ b, p b = true → p x = true → r x b) :
    (List.orderedInsert r x l).filter p =
      if p x then x :: l.filter p else l.filter p := by
  induction l with
  | nil =>
      cases hx : p x <;> simp [List.orderedInsert, List.filter_cons, hx]
  | cons b l ih =>
      by_cases hrb : r x b
      · rw [List.orderedInsert, if_pos hrb, List.filter_cons, List.filter_cons]
      · rw [List.orderedInsert, if_neg hrb, List.filter_cons]
        by_cases hpb : p b = true
        · have hpx : p x = false := by
            cases hx : p x with
            | false => rfl
            | true => exact absurd (h b hpb hx) hrb
          simp [hpb, hpx, ih, List.filter_cons]
        · simp only [Bool.not_eq_true] at hpb
          simp [hpb, ih, List.filter_cons]

/-- A stable insertion sort does not reorder the elements of any class on
which the sorting relation always holds. -/
theorem filter_insertionSort {α : Type} (r : α → α → Prop) [DecidableRel r]
    (p : α → Bool) (hp : ∀ a b, p a = true → p b = true → r a b) :
    ∀ l : List α, (l.insertionSort r).filter p = l.filter p := by
  intro l
  induction l with
  | nil => rfl
  | cons x l ih =>
      rw [List.insertionSort,
        filter_orderedInsert r p x _ (fun b hb hx => hp x b hx hb), ih, List.filter_cons]

/-- The JS `<` on a field value is irreflexive. -/
theorem FieldVal.ltb_self (v : FieldVal) : FieldVal.ltb v v = false := by
  cases v with
  | num a => simp [FieldVal.ltb]
  | str s =>
      simp only [FieldVal.ltb, decide_eq_false_iff_not]
      exact lt_irrefl s

/-- Two snapshots with equal sort-key values compare as `0`. -/
theorem stockCompare_eq_zero (cfg : SortConfig) (a b : Stock)
    (h : keyVal cfg.key a = keyVal cfg.key b) : stockCompare cfg a b = 0 := by
  unfold stockCompare
  rw [h, FieldVal.ltb_self]
  simp

/-- A left fold accumulating `g` over a list is the sum of the mapped list. -/
theorem foldl_add_eq_sum_map (g : Stock → ℚ) (l : List Stock) :
    l.foldl (fun sum s => sum + g s) 0 = (l.map g).sum := by
  rw [List.sum_eq_foldl, List.foldl_map]

/-- The delays produced by `n` consecutive disconnects, starting from any
state holding a socket, follow `min (1000 * 2 ^ (retryCount + k)) 30000`. -/
theorem delaysFrom_formula : ∀ (n : Nat) (s : HookState), s.hasSocket = true →
    delaysFrom s n
      = (List.range n).map (fun k => min (1000 * 2 ^ (s.retryCount + k)) 30000) := by
  intro n
  induction n with
  | zero => intro s _; rfl
  | succ n ih =>
      intro s hs
      rw [delaysFrom]
      simp only [hookStep, hs, if_true, connectFn, oncloseDelay]
      rw [ih _ rfl]
      rw [List.range_succ_eq_map, List.map_cons, List.map_map]
      congr 1
      apply List.map_congr_left
      intro k _
      simp only [Function.comp, Nat.succ_eq_add_one]
      have harith : s.retryCount + 1 + k = s.retryCount + (k + 1) := by omega
      rw [harith]

/-! Claim theorems. -/

/-- C1: starting from any state with a live socket, after a successful open
(`onopen`, which resets the retry counter to zero) the delays scheduled by
`n` consecutive disconnects with no intervening successful connect are
`1000 * min (2 ^ k) 30` milliseconds for `k = 0, 1, ...`, i.e. the sequence
`1, 2, 4, 8, 16, 30, 30, ...` in units of 1000 ms; the retry counter after
the open is zero, so the first delay is again one time unit. -/
theorem reconnect_backoff_sequence (s : HookState) (n : Nat)
    (h : s.hasSocket = true) :
    delaysFrom (hookStep s HookEvent.openEvt) n
      = (List.range n).map (fun k => 1000 * min (2 ^ k) 30)
    ∧ (hookStep s HookEvent.openEvt).retryCount = 0 := by
  have hopen : hookStep s HookEvent.openEvt
      = { s with connectionStatus := "connected", retryCount := 0 } := by
    simp [hookStep, h]
  refine ⟨?_, by rw [hopen]⟩
  rw [hopen, delaysFrom_formula n
    { s with connectionStatus := "connected", retryCount := 0 } (by exact h)]
  apply List.map_congr_left
  intro k _
  show min (1000 * 2 ^ (0 + k)) 30000 = 1000 * min (2 ^ k) 30
  rw [Nat.zero_add, show (30000 : Nat) = 1000 * 30 from rfl, Nat.mul_min_mul_left]

/-- Witness for C1: from a connected state with retry counter 5, a successful
open resets the counter and seven consecutive disconnects schedule exactly
the delays 1000, 2000, 4000, 8000, 16000, 30000, 30000 ms. -/
theorem reconnect_backoff_sequence_witness :
    delaysFrom (hookStep connectedHookState HookEvent.openEvt) 7
      = [1000, 2000, 4000, 8000, 16000, 30000, 30000] := by
  rw [(reconnect_backoff_sequence connectedHookState 7 rfl).1]
  rfl

/-- C2 (refuted by the code): the claim asserts that after the effect cleanup
no further call to `connect` ever occurs. In fact the cleanup closes the
socket and clears the pending timer, but the `onclose` handler remains
attached, so the close event that `close()` itself triggers — delivered after
the cleanup — schedules a fresh reconnect timer that nothing ever clears,
and when it fires `connect` runs again. Concretely: after the teardown trace
(mount, open, unmount) exactly one `connect` call has happened and no timer
is pending, yet processing the socket's own close event and the timer it
schedules yields a second `connect` call in the unmounted state. -/
theorem reconnect_attempt_after_teardown :
    (runEvents initialHookState teardownTrace).unmounted = true
    ∧ (runEvents initialHookState teardownTrace).connectCalls = 1
    ∧ (runEvents initialHookState teardownTrace).timerPending = false
    ∧ (runEvents initialHookState leakTrace).unmounted = true
    ∧ (runEvents initialHookState leakTrace).connectCalls = 2
    ∧ (runEvents initialHookState leakTrace).hasSocket = true :=
  ⟨rfl, rfl, rfl, rfl, rfl, rfl⟩

/-- C3: a frame whose payload fails to parse leaves the entire pipeline state
— the snapshot store, the derived view, the configurations, and the hook
(socket and connection status) — exactly as it was; the handler is total (the
`catch` absorbs the exception), and a subsequent frame is processed exactly
as if the malformed frame had never arrived. -/
theorem malformed_frame_is_noop (st : SysState) :
    processMessage st none = st
    ∧ (processMessage st none).stocks = st.stocks
    ∧ (processMessage st none).hook = st.hook
    ∧ ∀ p : Option ParsedMsg,
        processMessage (processMessage st none) p = processMessage st p :=
  ⟨rfl, rfl, rfl, fun _ => rfl⟩

/-- C10: a successfully parsed message whose `type` discriminant is anything
other than `market_data` — including the recognized `market_status` and
`error` types — leaves the whole state (in particular the snapshot store)
unchanged, while a `market_data` message replaces the stored snapshot set
with its payload. -/
theorem only_market_data_replaces_store (st : SysState) (m : ParsedMsg) :
    (m.type ≠ "market_data" → processMessage st (some m) = st)
    ∧ (m.type = "market_data" → (processMessage st (some m)).stocks = m.data) := by
  constructor
  · intro h
    simp [processMessage, h]
  · intro h
    simp [processMessage, h]

/-- Witness for C10: a parsed `market_status` frame and a parsed `error`
frame leave a concrete state unchanged. -/
theorem only_market_data_replaces_store_witness :
    processMessage exampleSys (some { type := "market_status", data := [] })
      = exampleSys
    ∧ processMessage exampleSys (some { type := "error", data := [] })
      = exampleSys :=
  ⟨(only_market_data_replaces_store exampleSys
      { type := "market_status", data := [] }).1 (by decide),
   (only_market_data_replaces_store exampleSys
      { type := "error", data := [] }).1 (by decide)⟩

/-- The filter predicate holds exactly when every configured bound is met,
a finite max bound being inclusive and the `Infinity` bound vacuous. -/
theorem stockPasses_iff (f : FilterConfig) (s : Stock) :
    stockPasses f s = true ↔
      (f.minPrice ≤ s.current_price
        ∧ (∀ m : ℚ, f.maxPrice = JVal.num m → s.current_price ≤ m)
        ∧ f.minVolume ≤ s.volume
        ∧ (∀ m : ℚ, f.maxVolume = JVal.num m → s.volume ≤ m)
        ∧ f.minTradeCount ≤ s.trade_count) := by
  cases hP : f.maxPrice with
  | num mp =>
      cases hV : f.maxVolume with
      | num mv => simp [stockPasses, JVal.geNum, hP, hV, and_assoc]
      | inf => simp [stockPasses, JVal.geNum, hP, hV, and_assoc]
  | inf =>
      cases hV : f.maxVolume with
      | num mv => simp [stockPasses, JVal.geNum, hP, hV, and_assoc]
      | inf => simp [stockPasses, JVal.geNum, hP, hV, and_assoc]

/-- C4: the filter step of the derived-view computation retains a snapshot
iff it was present and its `current_price` lies within
`[minPrice, maxPrice]` inclusive, its `volume` within
`[minVolume, maxVolume]` inclusive, and its `trade_count` is at least
`minTradeCount`, where an `Infinity` max bound constrains nothing; in
particular a snapshot priced exactly at a finite ceiling passes, the same
snapshot one unit above fails, and it passes again once the ceiling is
unbounded. -/
theorem filter_step_characterization :
    (∀ (f : FilterConfig) (stocks : List Stock) (s : Stock),
        s ∈ stocks.filter (stockPasses f)
          ↔ s ∈ stocks
            ∧ f.minPrice ≤ s.current_price
            ∧ (∀ m : ℚ, f.maxPrice = JVal.num m → s.current_price ≤ m)
            ∧ f.minVolume ≤ s.volume
            ∧ (∀ m : ℚ, f.maxVolume = JVal.num m → s.volume ≤ m)
            ∧ f.minTradeCount ≤ s.trade_count)
    ∧ stockPasses boundaryFilter stockAtMax = true
    ∧ stockPasses boundaryFilter stockAboveMax = false
    ∧ stockPasses unboundedMaxFilter stockAboveMax = true := by
  refine ⟨?_, by decide, by decide, by decide⟩
  intro f stocks s
  rw [List.mem_filter, stockPasses_iff]

/-- Witness for C4: the snapshot priced exactly at the ceiling is a member of
the filter step's output on a concrete list. -/
theorem filter_step_characterization_witness :
    stockAtMax ∈ [stockAtMax, stockAboveMax].filter (stockPasses boundaryFilter) := by
  refine (filter_step_characterization.1 boundaryFilter
    [stockAtMax, stockAboveMax] stockAtMax).mpr
    ⟨by simp, by norm_num [boundaryFilter, stockAtMax], ?_,
     by norm_num [boundaryFilter, stockAtMax], ?_,
     by norm_num [boundaryFilter, stockAtMax]⟩
  · intro m hm
    have hm' : (100 : ℚ) = m := by
      simpa [boundaryFilter] using hm
    rw [← hm']
    norm_num [stockAtMax]
  · intro m hm
    simp [boundaryFilter] at hm

/-- C5: the sort step is stable — restricted to any single value of the
configured sort key, the sorted output lists exactly the input snapshots in
their original relative order, for every direction string — and the `desc`
direction produces exactly the negation of the `asc` comparator. -/
theorem sort_stability (cfg : SortConfig) (l : List Stock) (v : FieldVal) :
    (jsSortStocks cfg l).filter (fun s => decide (keyVal cfg.key s = v))
      = l.filter (fun s => decide (keyVal cfg.key s = v))
    ∧ ∀ (k : SortKey) (a b : Stock),
        stockCompare { key := k, direction := "desc" } a b
          = - stockCompare { key := k, direction := "asc" } a b := by
  constructor
  · unfold jsSortStocks
    apply filter_insertionSort
    intro a b ha hb
    have ha' : keyVal cfg.key a = v := of_decide_eq_true ha
    have hb' : keyVal cfg.key b = v := of_decide_eq_true hb
    have hz : stockCompare cfg a b = 0 :=
      stockCompare_eq_zero cfg a b (ha'.trans hb'.symm)
    rw [hz]
  · intro k a b
    cases h1 : FieldVal.ltb (keyVal k a) (keyVal k b) <;>
      cases h2 : FieldVal.ltb (keyVal k b) (keyVal k a) <;>
        simp [stockCompare, h1, h2]

/-- C6: the truncation step keeps exactly the first `displayCount` entries of
the sorted, filtered list: the output is a prefix of the sorted filtered
list and its length is `min displayCount` of the number of snapshots passing
the filter; with one hundred snapshots all passing and `displayCount = 20`
the computation yields exactly twenty entries. -/
theorem truncation_keeps_first (stocks : List Stock) (f : FilterConfig)
    (cfg : SortConfig) :
    (compute stocks f cfg).length
        = min f.displayCount (stocks.filter (stockPasses f)).length
    ∧ compute stocks f cfg <+: jsSortStocks cfg (stocks.filter (stockPasses f))
    ∧ (compute manyStocks topTwentyFilter defaultSortConfig).length = 20 := by
  refine ⟨?_, ?_, ?_⟩
  · rw [compute, List.length_take, jsSortStocks, List.length_insertionSort]
  · exact List.take_prefix _ _
  · rw [compute, List.length_take, jsSortStocks, List.length_insertionSort]
    decide

/-- C7: the derived-view computation is deterministic — two runs on equal
`(snapshots, filter, sort)` inputs produce equal outputs — and after every
state update that reaches it (an inbound frame, a filter change, or a sort
change) the stored derived view equals the computation applied to the new
inputs, never a stale result; mutation-freedom holds by construction, the
computation being a pure function of its three arguments. -/
theorem compute_pure_and_recomputed :
    (∀ (s1 s2 : List Stock) (f1 f2 : FilterConfig) (c1 c2 : SortConfig),
        s1 = s2 → f1 = f2 → c1 = c2 → compute s1 f1 c1 = compute s2 f2 c2)
    ∧ (∀ (st : SysState) (a : AppAction),
        (appStep st a).filteredStocks
          = compute (appStep st a).stocks (appStep st a).filterConfig
              (appStep st a).sortConfig) := by
  constructor
  · rintro s1 s2 f1 f2 c1 c2 rfl rfl rfl
    rfl
  · rintro st (p | f | c) <;> rfl

/-- Witness for C7: two runs on identical concrete inputs coincide. -/
theorem compute_pure_and_recomputed_witness :
    compute [stockAtMax] boundaryFilter defaultSortConfig
      = compute [stockAtMax] boundaryFilter defaultSortConfig :=
  compute_pure_and_recomputed.1 [stockAtMax] [stockAtMax] boundaryFilter
    boundaryFilter defaultSortConfig defaultSortConfig rfl rfl rfl

/-- C8: a filter with an inverted finite range — a finite price ceiling below
`minPrice`, or a finite volume ceiling below `minVolume` — makes the
derived-view computation return the empty list on every snapshot list: no
snapshot can satisfy both bounds, and no error is raised (the computation is
total). -/
theorem inverted_range_yields_empty (stocks : List Stock) (f : FilterConfig)
    (cfg : SortConfig)
    (h : (∃ m : ℚ, f.maxPrice = JVal.num m ∧ m < f.minPrice)
       ∨ (∃ m : ℚ, f.maxVolume = JVal.num m ∧ m < f.minVolume)) :
    compute stocks f cfg = [] := by
  have hfilter : stocks.filter (stockPasses f) = [] := by
    rw [List.filter_eq_nil_iff]
    intro s _ hpass
    rw [stockPasses_iff] at hpass
    rcases h with ⟨m, hm, hlt⟩ | ⟨m, hm, hlt⟩
    · exact absurd (le_trans hpass.1 (hpass.2.1 m hm)) (not_le.mpr hlt)
    · exact absurd (le_trans hpass.2.2.1 (hpass.2.2.2.1 m hm)) (not_le.mpr hlt)
  rw [compute, jsSortStocks, hfilter]
  simp [List.insertionSort]

/-- Witness for C8: the inverted price range `[5, 3]` empties a concrete
non-empty snapshot list. -/
theorem inverted_range_yields_empty_witness :
    compute [stockAtMax] invertedFilter defaultSortConfig = [] :=
  inverted_range_yields_empty [stockAtMax] invertedFilter defaultSortConfig
    (Or.inl ⟨3, rfl, by decide⟩)

/-- C9: on an empty snapshot set the statistics memo short-circuits to the
absent result before any division happens, and on a non-empty set it returns
the sum of the volumes, the sum of the trade counts, and the arithmetic mean
of the current prices. -/
theorem stats_empty_guard_and_aggregates :
    statsOf [] = none
    ∧ ∀ stocks : List Stock, stocks ≠ [] →
        statsOf stocks = some
          { totalVolume := (stocks.map Stock.volume).sum
            totalTrades := (stocks.map Stock.trade_count).sum
            avgPrice := (stocks.map Stock.current_price).sum / (stocks.length : ℚ) } := by
  refine ⟨rfl, ?_⟩
  intro stocks hne
  rw [statsOf, if_neg (by simpa using hne)]
  rw [foldl_add_eq_sum_map, foldl_add_eq_sum_map, foldl_add_eq_sum_map]

/-- Witness for C9 on a singleton snapshot set: total volume 10, total
trades 5, average price 100. -/
theorem stats_empty_guard_and_aggregates_witness :
    statsOf [stockAtMax]
      = some { totalVolume := 10, totalTrades := 5, avgPrice := 100 } := by
  rw [stats_empty_guard_and_aggregates.2 [stockAtMax] (by decide)]
  norm_num [stockAtMax]

end StockDashboard
